import Mathlib

/-!
Verification of the AlgoVault backend persistence and handler layer.

The Go source is shallowly embedded: database tables become lists of row
structures, SQL statements become pure list operations, handlers become
functions from request data and database state to a response and a new
state.  Values read at runtime from the environment (generateID results,
time.Now readings, bcrypt outcomes) are passed as explicit parameters,
so each handler is a deterministic function of its inputs.
-/

namespace AlgoVault

/-- Row of the users table (models.go, User struct / users DDL). -/
structure UserRow where
  id : String
  email : String
  name : String
  password : String
  role : String
  createdAt : Nat
deriving DecidableEq, Repr

/-- Row of the categories table (models.go, Category struct without the
derived patternCount, which is never persisted). -/
structure CategoryRow where
  id : String
  name : String
  icon : String
  description : String
  createdAt : Nat
  updatedAt : Nat
deriving DecidableEq, Repr

/-- Row of the patterns table. -/
structure PatternRow where
  id : String
  categoryId : String
  name : String
  icon : String
  description : String
  theory : String
  createdAt : Nat
  updatedAt : Nat
deriving DecidableEq, Repr

/-- Row of the problems table. -/
structure ProblemRow where
  id : String
  patternId : String
  title : String
  difficulty : String
  description : String
  input : String
  output : String
  constraints : String
  sampleInput : String
  sampleOutput : String
  explanation : String
  notes : String
  createdAt : Nat
  updatedAt : Nat
deriving DecidableEq, Repr

/-- Row of the solutions table. -/
structure SolutionRow where
  id : String
  problemId : String
  language : String
  code : String
  createdAt : Nat
  updatedAt : Nat
deriving DecidableEq, Repr

/-- Row of the learning_topics table. -/
structure TopicRow where
  id : String
  name : String
  icon : String
  description : String
  slug : String
  createdAt : Nat
  updatedAt : Nat
deriving DecidableEq, Repr

/-- Row of the learning_resources table. -/
structure ResourceRow where
  id : String
  topicId : String
  title : String
  content : String
  ty : String
  url : String
  orderIndex : Nat
  createdAt : Nat
  updatedAt : Nat
deriving DecidableEq, Repr

/-- Row of the roadmap_items table. -/
structure RoadmapRow where
  id : String
  topicId : String
  title : String
  description : String
  orderIndex : Nat
  status : String
  createdAt : Nat
  updatedAt : Nat
deriving DecidableEq, Repr

/-- The relational state: one list of rows per table of the schema in
InitSchema (models.go). -/
structure DBState where
  users : List UserRow
  categories : List CategoryRow
  patterns : List PatternRow
  problems : List ProblemRow
  solutions : List SolutionRow
  learningTopics : List TopicRow
  learningResources : List ResourceRow
  roadmapItems : List RoadmapRow
deriving DecidableEq, Repr

/-- The empty database. -/
def DBState.empty : DBState :=
  { users := [], categories := [], patterns := [], problems := [],
    solutions := [], learningTopics := [], learningResources := [],
    roadmapItems := [] }

/-- HTTP-level outcome of a handler, with payloads abstracted away.
Status codes: ok 200, created 201, forbidden 403, notFound 404,
unauthorized 401, conflict 409, serverError 500, unavailable 503. -/
inductive HResp where
  | ok : HResp
  | created : HResp
  | forbidden : String → HResp
  | notFound : String → HResp
  | unauthorized : String → HResp
  | badRequest : String → HResp
  | conflict : String → HResp
  | serverError : String → HResp
  | unavailable : String → HResp
deriving DecidableEq, Repr

/-- True exactly on the forbidden (HTTP 403) outcome. -/
def HResp.isForbidden : HResp → Bool
  | .forbidden _ => true
  | _ => false

/-- True exactly on the unavailable (HTTP 503, database initializing)
outcome. -/
def HResp.isUnavailable : HResp → Bool
  | .unavailable _ => true
  | _ => false

/-- Translation of isDemoUser (middleware.go): the caller is the demo
user when the resolved role equals the string demo. -/
def isDemoUser (role : String) : Bool :=
  role == "demo"

/-! ## SQL statement semantics used by the handlers -/

/-- Effect of DELETE FROM categories WHERE id = ?.  When the engine
enforces the foreign keys declared in InitSchema, the ON DELETE CASCADE
clauses remove descendant patterns, their problems, and those problems
solutions; without enforcement only the categories row is removed. -/
def execDeleteCategory (fkEnforced : Bool) (cid : String) (s : DBState) : DBState :=
  let s1 := { s with categories := s.categories.filter (fun c => !(c.id == cid)) }
  if fkEnforced then
    let deadPatIds := (s1.patterns.filter (fun p => p.categoryId == cid)).map (·.id)
    let deadProbIds :=
      (s1.problems.filter (fun pr => deadPatIds.contains pr.patternId)).map (·.id)
    { s1 with
      patterns := s1.patterns.filter (fun p => !(p.categoryId == cid)),
      problems := s1.problems.filter (fun pr => !(deadPatIds.contains pr.patternId)),
      solutions := s1.solutions.filter (fun so => !(deadProbIds.contains so.problemId)) }
  else s1

/-- Effect of DELETE FROM patterns WHERE id = ?, with the same
foreign-key caveat as for categories. -/
def execDeletePattern (fkEnforced : Bool) (pid : String) (s : DBState) : DBState :=
  let s1 := { s with patterns := s.patterns.filter (fun p => !(p.id == pid)) }
  if fkEnforced then
    let deadProbIds := (s1.problems.filter (fun pr => pr.patternId == pid)).map (·.id)
    { s1 with
      problems := s1.problems.filter (fun pr => !(pr.patternId == pid)),
      solutions := s1.solutions.filter (fun so => !(deadProbIds.contains so.problemId)) }
  else s1

/-- Effect of DELETE FROM problems WHERE id = ?, with the same
foreign-key caveat. -/
def execDeleteProblem (fkEnforced : Bool) (pid : String) (s : DBState) : DBState :=
  let s1 := { s with problems := s.problems.filter (fun pr => !(pr.id == pid)) }
  if fkEnforced then
    { s1 with solutions := s1.solutions.filter (fun so => !(so.problemId == pid)) }
  else s1

/-! ## Category handlers (handlers.go) -/

/-- Translation of CreateCategory.  newId is the generateID() result;
n1 and n2 are the two consecutive time.Now() readings used for
CreatedAt and UpdatedAt.  The decoded body may carry an id, which the
handler overwrites with the fresh one. -/
def CreateCategory (role : String) (newId : String) (n1 n2 : Nat)
    (body : CategoryRow) (s : DBState) : HResp × DBState :=
  if isDemoUser role then (.forbidden "Demo users cannot create categories", s)
  else
    let cat : CategoryRow :=
      { id := newId, name := body.name, icon := body.icon,
        description := body.description, createdAt := n1, updatedAt := n2 }
    (.created, { s with categories := s.categories ++ [cat] })

/-- Translation of UpdateCategory.  n is the time.Now() reading used for
updated_at; the WHERE clause keys on the URL id. -/
def UpdateCategory (role : String) (cid : String) (n : Nat)
    (body : CategoryRow) (s : DBState) : HResp × DBState :=
  if isDemoUser role then (.forbidden "Demo users cannot update categories", s)
  else
    (.ok, { s with categories := s.categories.map (fun c =>
      if c.id == cid then
        { c with
          name := body.name, icon := body.icon,
          description := body.description, updatedAt := n }
      else c) })

/-- Translation of DeleteCategory: a single DELETE on categories; any
cascade to descendants is entirely the engines foreign-key behaviour. -/
def DeleteCategory (role : String) (fkEnforced : Bool) (cid : String)
    (s : DBState) : HResp × DBState :=
  if isDemoUser role then (.forbidden "Demo users cannot delete categories", s)
  else (.ok, execDeleteCategory fkEnforced cid s)

/-! ## Pattern handlers -/

/-- Translation of CreatePattern. -/
def CreatePattern (role : String) (categoryId : String) (newId : String)
    (n1 n2 : Nat) (body : PatternRow) (s : DBState) : HResp × DBState :=
  if isDemoUser role then (.forbidden "Demo users cannot create patterns", s)
  else
    let pat : PatternRow :=
      { id := newId, categoryId := categoryId, name := body.name,
        icon := body.icon, description := body.description,
        theory := body.theory, createdAt := n1, updatedAt := n2 }
    (.created, { s with patterns := s.patterns ++ [pat] })

/-- Translation of UpdatePattern. -/
def UpdatePattern (role : String) (pid : String) (n : Nat)
    (body : PatternRow) (s : DBState) : HResp × DBState :=
  if isDemoUser role then (.forbidden "Demo users cannot update patterns", s)
  else
    (.ok, { s with patterns := s.patterns.map (fun p =>
      if p.id == pid then
        { p with
          name := body.name, icon := body.icon,
          description := body.description, theory := body.theory,
          updatedAt := n }
      else p) })

/-- Translation of DeletePattern. -/
def DeletePattern (role : String) (fkEnforced : Bool) (pid : String)
    (s : DBState) : HResp × DBState :=
  if isDemoUser role then (.forbidden "Demo users cannot delete patterns", s)
  else (.ok, execDeletePattern fkEnforced pid s)

/-- Translation of UpdatePatternTheory. -/
def UpdatePatternTheory (role : String) (pid : String) (n : Nat)
    (theory : String) (s : DBState) : HResp × DBState :=
  if isDemoUser role then (.forbidden "Demo users cannot update pattern theory", s)
  else
    (.ok, { s with patterns := s.patterns.map (fun p =>
      if p.id == pid then { p with theory := theory, updatedAt := n } else p) })

/-! ## Problem handlers -/

/-- Client payload of CreateProblem and UpdateProblem: the Problem
struct of models.go, a problem row together with inline solutions. -/
structure ProblemPayload where
  row : ProblemRow
  solutions : List SolutionRow
deriving DecidableEq, Repr

/-- Translation of CreateProblem.  newId, n1, n2 are the samples for the
problem row; the i-th submitted solution draws its id from gen i and its
CreatedAt and UpdatedAt from clock (2*i) and clock (2*i+1), matching the
sampling order of the loop body. -/
def CreateProblem (role : String) (patternId : String) (newId : String)
    (n1 n2 : Nat) (gen : Nat → String) (clock : Nat → Nat)
    (body : ProblemPayload) (s : DBState) : HResp × DBState :=
  if isDemoUser role then (.forbidden "Demo users cannot create problems", s)
  else
    let prob : ProblemRow :=
      { body.row with
        id := newId, patternId := patternId,
        createdAt := n1, updatedAt := n2 }
    let newSols := body.solutions.enum.map (fun p =>
      { id := gen p.1, problemId := newId, language := p.2.language,
        code := p.2.code, createdAt := clock (2 * p.1),
        updatedAt := clock (2 * p.1 + 1) : SolutionRow })
    (.created, { s with problems := s.problems ++ [prob],
                        solutions := s.solutions ++ newSols })

/-- The WHERE clause problem_id = ? AND language = ? shared by the
lookup, the update and the uniqueness constraint of solutions. -/
def solMatches (pid lang : String) (r : SolutionRow) : Bool :=
  r.problemId == pid && r.language == lang

/-- Translation of the body of the solutions loop of UpdateProblem: look
up an existing row for (problem, language); insert a fresh row if none
exists, otherwise update code and updated_at in place.  nowU is the
time.Now() reading taken at the top of the loop body for UpdatedAt; nowC
is the later reading taken in the insert branch for CreatedAt; newId is
the generateID() result of the insert branch. -/
def updSol (code : String) (u : Nat) (r : SolutionRow) : SolutionRow :=
  { r with code := code, updatedAt := u }

/-- Translation of UPDATE solutions SET code = ?, updated_at = ? WHERE
problem_id = ? AND language = ?. -/
def updSolWhere (pid lang code : String) (u : Nat) (sols : List SolutionRow) :
    List SolutionRow :=
  sols.map (fun r => if solMatches pid lang r then updSol code u r else r)

/-- Translation of the body of the solutions loop of UpdateProblem: look
up an existing row for (problem, language); insert a fresh row if none
exists, otherwise update code and updated_at in place.  nowU is the
time.Now() reading taken at the top of the loop body for UpdatedAt; nowC
is the later reading taken in the insert branch for CreatedAt; newId is
the generateID() result of the insert branch. -/
def upsertSolution (newId : String) (nowU nowC : Nat) (pid lang code : String)
    (sols : List SolutionRow) : List SolutionRow :=
  match sols.find? (solMatches pid lang) with
  | none =>
      sols ++ [{ id := newId, problemId := pid, language := lang, code := code,
                 createdAt := nowC, updatedAt := nowU }]
  | some _ => updSolWhere pid lang code nowU sols

/-- Translation of UpdateProblem: update the mutable problem columns,
then upsert every submitted solution.  n is the time.Now() reading for
the problem update; iteration i of the loop draws UpdatedAt from
clock (2*i), CreatedAt (insert branch) from clock (2*i+1) and the fresh
id from gen i. -/
def UpdateProblem (role : String) (pid : String) (n : Nat)
    (gen : Nat → String) (clock : Nat → Nat) (body : ProblemPayload)
    (s : DBState) : HResp × DBState :=
  if isDemoUser role then (.forbidden "Demo users cannot update problems", s)
  else
    let probs := s.problems.map (fun pr =>
      if pr.id == pid then
        { pr with
          title := body.row.title, difficulty := body.row.difficulty,
          description := body.row.description, input := body.row.input,
          output := body.row.output, constraints := body.row.constraints,
          sampleInput := body.row.sampleInput,
          sampleOutput := body.row.sampleOutput,
          explanation := body.row.explanation, notes := body.row.notes,
          updatedAt := n }
      else pr)
    let sols := body.solutions.enum.foldl (fun acc p =>
      upsertSolution (gen p.1) (clock (2 * p.1)) (clock (2 * p.1 + 1))
        pid p.2.language p.2.code acc) s.solutions
    (.ok, { s with problems := probs, solutions := sols })

/-- Translation of DeleteProblem. -/
def DeleteProblem (role : String) (fkEnforced : Bool) (pid : String)
    (s : DBState) : HResp × DBState :=
  if isDemoUser role then (.forbidden "Demo users cannot delete problems", s)
  else (.ok, execDeleteProblem fkEnforced pid s)

/-! ## Read handlers.  Query payloads are abstracted; what the claims
need is the status outcome and that reads leave the state unchanged. -/

/-- Translation of GetCategories (always a 200 listing). -/
def GetCategories (s : DBState) : HResp × DBState :=
  (.ok, s)

/-- Translation of GetPatterns for one category. -/
def GetPatterns (categoryId : String) (s : DBState) : HResp × DBState :=
  let _ := categoryId
  (.ok, s)

/-- Translation of GetProblems for one pattern. -/
def GetProblems (patternId : String) (s : DBState) : HResp × DBState :=
  let _ := patternId
  (.ok, s)

/-- Translation of GetProblem: the point lookup distinguishes the
domain not-found outcome from success. -/
def GetProblem (pid : String) (s : DBState) : HResp × DBState :=
  match s.problems.find? (fun pr => pr.id == pid) with
  | none => (.notFound "Problem not found", s)
  | some _ => (.ok, s)

/-- Translation of GetLearningTopics. -/
def GetLearningTopics (s : DBState) : HResp × DBState :=
  (.ok, s)

/-- Translation of GetLearningTopicBySlug. -/
def GetLearningTopicBySlug (slug : String) (s : DBState) : HResp × DBState :=
  match s.learningTopics.find? (fun t => t.slug == slug) with
  | none => (.notFound "Topic not found", s)
  | some _ => (.ok, s)

/-- Translation of GetLearningResources. -/
def GetLearningResources (topicId : String) (s : DBState) : HResp × DBState :=
  let _ := topicId
  (.ok, s)

/-- Translation of GetRoadmap. -/
def GetRoadmap (topicId : String) (s : DBState) : HResp × DBState :=
  let _ := topicId
  (.ok, s)

/-! ## Bulk operations (main.go) -/

/-- Table list of ClearAllData, in source order; the source comment
reads: order matters due to foreign keys. -/
def clearTables : List String :=
  ["solutions", "problems", "patterns", "categories",
   "learning_resources", "roadmap_items", "learning_topics"]

/-- Effect of DELETE FROM t (no WHERE clause) for a named table. -/
def deleteAllFrom (s : DBState) (t : String) : DBState :=
  if t == "solutions" then { s with solutions := [] }
  else if t == "problems" then { s with problems := [] }
  else if t == "patterns" then { s with patterns := [] }
  else if t == "categories" then { s with categories := [] }
  else if t == "learning_resources" then { s with learningResources := [] }
  else if t == "roadmap_items" then { s with roadmapItems := [] }
  else if t == "learning_topics" then { s with learningTopics := [] }
  else if t == "users" then { s with users := [] }
  else s

/-- Translation of ClearAllData: one DELETE per table of clearTables,
issued in that order. -/
def ClearAllData (role : String) (s : DBState) : HResp × DBState :=
  if isDemoUser role then (.forbidden "Demo users cannot clear data", s)
  else (.ok, clearTables.foldl deleteAllFrom s)

/-- Parent table referenced by each child tables foreign key, read off
the FOREIGN KEY declarations of InitSchema. -/
def fkParentTable : String → Option String
  | "patterns" => some "categories"
  | "problems" => some "patterns"
  | "solutions" => some "problems"
  | "learning_resources" => some "learning_topics"
  | "roadmap_items" => some "learning_topics"
  | _ => none

/-- Problem entry of the external bulk response (ThitaBulkResponse). -/
structure TBulkProblem where
  id : String
  title : String
  difficulty : String
deriving DecidableEq, Repr

/-- Pattern entry of the external bulk response. -/
structure TBulkPattern where
  name : String
  description : String
  problems : List TBulkProblem
deriving DecidableEq, Repr

/-- Category entry of the external bulk response. -/
structure TBulkCategory where
  name : String
  description : String
  patterns : List TBulkPattern
deriving DecidableEq, Repr

/-- Problem leg of the FetchAllExternalData import loop.  The counter k
indexes the next unread sample of gen and clock; the target id is drawn
before the existence lookup, exactly as in the source. -/
def importProblems (gen : Nat → String) (clock : Nat → Nat) (patId : String) :
    List TBulkProblem → DBState → Nat → DBState × Nat
  | [], s, k => (s, k)
  | p :: rest, s, k =>
    let idAndK : String × Nat := if p.id == "" then (gen k, k + 1) else (p.id, k)
    let targetProbID := idAndK.1
    let k := idAndK.2
    match s.problems.find? (fun pr => pr.title == p.title && pr.patternId == patId) with
    | some _ => importProblems gen clock patId rest s k
    | none =>
      let row : ProblemRow :=
        { id := targetProbID, patternId := patId, title := p.title,
          difficulty := p.difficulty,
          description := "Description pending fetch...",
          input := "See description", output := "See description",
          constraints := "No specific constraints provided.",
          sampleInput := "", sampleOutput := "", explanation := "",
          notes := "", createdAt := clock k, updatedAt := clock (k + 1) }
      importProblems gen clock patId rest
        { s with problems := s.problems ++ [row] } (k + 2)

/-- Pattern leg of the import loop. -/
def importPatterns (gen : Nat → String) (clock : Nat → Nat) (catId : String) :
    List TBulkPattern → DBState → Nat → DBState × Nat
  | [], s, k => (s, k)
  | p :: rest, s, k =>
    match s.patterns.find? (fun q => q.name == p.name && q.categoryId == catId) with
    | some q =>
      let (s, k) := importProblems gen clock q.id p.problems s k
      importPatterns gen clock catId rest s k
    | none =>
      let patID := gen k
      let row : PatternRow :=
        { id := patID, categoryId := catId, name := p.name, icon := "Code",
          description := p.description, theory := "",
          createdAt := clock (k + 1), updatedAt := clock (k + 2) }
      let (s, k) := importProblems gen clock patID p.problems
        { s with patterns := s.patterns ++ [row] } (k + 3)
      importPatterns gen clock catId rest s k

/-- Category leg of the import loop. -/
def importCategories (gen : Nat → String) (clock : Nat → Nat) :
    List TBulkCategory → DBState → Nat → DBState × Nat
  | [], s, k => (s, k)
  | c :: rest, s, k =>
    match s.categories.find? (fun d => d.name == c.name) with
    | some d =>
      let (s, k) := importPatterns gen clock d.id c.patterns s k
      importCategories gen clock rest s k
    | none =>
      let catID := gen k
      let row : CategoryRow :=
        { id := catID, name := c.name, icon := "Globe",
          description := c.description,
          createdAt := clock (k + 1), updatedAt := clock (k + 2) }
      let (s, k) := importPatterns gen clock catID c.patterns
        { s with categories := s.categories ++ [row] } (k + 3)
      importCategories gen clock rest s k

/-- Translation of FetchAllExternalData: the demo check, then the
three-level upsert-style import of the decoded bulk payload. -/
def FetchAllExternalData (role : String) (gen : Nat → String)
    (clock : Nat → Nat) (payload : List TBulkCategory) (s : DBState) :
    HResp × DBState :=
  if isDemoUser role then (.forbidden "Demo users cannot fetch bulk data", s)
  else (.ok, (importCategories gen clock payload s 0).1)

/-! ## Request dispatch over the role-gated content routes (main.go) -/

/-- One authenticated API request, carrying the decoded body and the
runtime samples (fresh ids, clock readings) its handler consumes. -/
inductive Req where
  | createCategory (newId : String) (n1 n2 : Nat) (body : CategoryRow)
  | updateCategory (cid : String) (n : Nat) (body : CategoryRow)
  | deleteCategory (cid : String)
  | createPattern (categoryId newId : String) (n1 n2 : Nat) (body : PatternRow)
  | updatePattern (pid : String) (n : Nat) (body : PatternRow)
  | deletePattern (pid : String)
  | updatePatternTheory (pid : String) (n : Nat) (theory : String)
  | createProblem (patternId newId : String) (n1 n2 : Nat)
      (gen : Nat → String) (clock : Nat → Nat) (body : ProblemPayload)
  | updateProblem (pid : String) (n : Nat)
      (gen : Nat → String) (clock : Nat → Nat) (body : ProblemPayload)
  | deleteProblem (pid : String)
  | fetchAllExternalData (gen : Nat → String) (clock : Nat → Nat)
      (payload : List TBulkCategory)
  | clearAllData
  | getCategories
  | getPatterns (categoryId : String)
  | getProblems (patternId : String)
  | getProblem (pid : String)
  | getLearningTopics
  | getLearningTopicBySlug (slug : String)
  | getLearningResources (topicId : String)
  | getRoadmap (topicId : String)

/-- True on the mutating operations: create, update, delete on
Category, Pattern, Problem, the pattern-theory update, the bulk import
and the bulk clear. -/
def Req.isMutating : Req → Bool
  | .createCategory .. => true
  | .updateCategory .. => true
  | .deleteCategory .. => true
  | .createPattern .. => true
  | .updatePattern .. => true
  | .deletePattern .. => true
  | .updatePatternTheory .. => true
  | .createProblem .. => true
  | .updateProblem .. => true
  | .deleteProblem .. => true
  | .fetchAllExternalData .. => true
  | .clearAllData => true
  | .getCategories => false
  | .getPatterns .. => false
  | .getProblems .. => false
  | .getProblem .. => false
  | .getLearningTopics => false
  | .getLearningTopicBySlug .. => false
  | .getLearningResources .. => false
  | .getRoadmap .. => false

/-- Router dispatch of an authenticated request to its handler, with
the callers resolved role and the engines foreign-key behaviour as
parameters. -/
def handle (fkEnforced : Bool) (role : String) (req : Req) (s : DBState) :
    HResp × DBState :=
  match req with
  | .createCategory newId n1 n2 body => CreateCategory role newId n1 n2 body s
  | .updateCategory cid n body => UpdateCategory role cid n body s
  | .deleteCategory cid => DeleteCategory role fkEnforced cid s
  | .createPattern categoryId newId n1 n2 body =>
      CreatePattern role categoryId newId n1 n2 body s
  | .updatePattern pid n body => UpdatePattern role pid n body s
  | .deletePattern pid => DeletePattern role fkEnforced pid s
  | .updatePatternTheory pid n theory => UpdatePatternTheory role pid n theory s
  | .createProblem patternId newId n1 n2 gen clock body =>
      CreateProblem role patternId newId n1 n2 gen clock body s
  | .updateProblem pid n gen clock body =>
      UpdateProblem role pid n gen clock body s
  | .deleteProblem pid => DeleteProblem role fkEnforced pid s
  | .fetchAllExternalData gen clock payload =>
      FetchAllExternalData role gen clock payload s
  | .clearAllData => ClearAllData role s
  | .getCategories => GetCategories s
  | .getPatterns categoryId => GetPatterns categoryId s
  | .getProblems patternId => GetProblems patternId s
  | .getProblem pid => GetProblem pid s
  | .getLearningTopics => GetLearningTopics s
  | .getLearningTopicBySlug slug => GetLearningTopicBySlug slug s
  | .getLearningResources topicId => GetLearningResources topicId s
  | .getRoadmap topicId => GetRoadmap topicId s

/-! ## Placeholder translator (models.go convertPlaceholders and
internal/infrastructure/database ConvertPlaceholders) -/

/-- Loop body of convertPlaceholders: scan left to right, replacing each
question mark with a dollar sign followed by the decimal rendering of
the running 1-based counter, copying every other character. -/
def convAux (n : Nat) : List Char → List Char
  | [] => []
  | c :: rest =>
    if c == '?' then ('$' :: (toString n).toList) ++ convAux (n + 1) rest
    else c :: convAux n rest

/-- Translation of convertPlaceholders (models.go): identity for the
embedded engine, the scan-and-replace loop for PostgreSQL. -/
def convertPlaceholders (isPostgres : Bool) (query : String) : String :=
  if !isPostgres then query
  else String.mk (convAux 1 query.toList)

/-- Translation of ConvertPlaceholders
(internal/infrastructure/database/database.go); its body is identical
to convertPlaceholders. -/
def ConvertPlaceholders (isPostgres : Bool) (query : String) : String :=
  if !isPostgres then query
  else String.mk (convAux 1 query.toList)

/-- The 1-based PostgreSQL positional marker for index i. -/
def positionalMarker (i : Nat) : List Char :=
  '$' :: (toString i).toList

/-- Reassemble question-mark-free segments with one question mark
between consecutive segments: a SQL text containing N placeholder
characters factors uniquely this way into N+1 segments. -/
def joinWithQ : List (List Char) → List Char
  | [] => []
  | [seg] => seg
  | seg :: rest => seg ++ '?' :: joinWithQ rest

/-- Reassemble the same segments with the positional markers $k,
$(k+1), ... between consecutive segments. -/
def withMarkers (k : Nat) : List (List Char) → List Char
  | [] => []
  | [seg] => seg
  | seg :: rest => seg ++ positionalMarker k ++ withMarkers (k + 1) rest

/-! ## Dialect adapter (models.go NewDatabase) -/

/-- Connection string the adapter passes to the embedded engine
(models.go NewDatabase, SQLite branch). -/
def sqliteConnString (dbPath : String) : String :=
  dbPath ++ "?_journal_mode=WAL&_busy_timeout=5000"

/-- Split a character list on a separator character. -/
def splitChar (sep : Char) : List Char → List (List Char)
  | [] => [[]]
  | c :: cs =>
    let r := splitChar sep cs
    if c == sep then [] :: r
    else
      match r with
      | [] => [[c]]
      | h :: t => (c :: h) :: t

/-- True when the second list starts with the first. -/
def leadingMatch : List Char → List Char → Bool
  | [], _ => true
  | _ :: _, [] => false
  | a :: as, b :: bs => a == b && leadingMatch as bs

/-- Query parameters of a driver connection string: everything after
the first question mark, split on ampersands. -/
def dsnParams (dsn : String) : List (List Char) :=
  match splitChar '?' dsn.toList with
  | [] => []
  | [_] => []
  | _ :: rest => splitChar '&' (joinWithQ rest)

/-- Modelled from the spec: foreign-key enforcement on the embedded
engine is off by default and must be explicitly enabled, which the
go-sqlite3 driver accepts as a _foreign_keys or _fk connection-string
parameter.  The DSN enables it exactly when such a parameter is
present. -/
def dsnEnablesForeignKeys (dsn : String) : Bool :=
  (dsnParams dsn).any (fun p =>
    leadingMatch "_foreign_keys=".toList p || leadingMatch "_fk=".toList p)

/-- Control flow of NewDatabase after the engine is opened: ping, then
InitSchema, then migrate, then createDemoUser are each fatal on
failure; a seedLearningData failure is only logged (log.Printf) and the
constructor still succeeds.  Each argument is the outcome of the
corresponding fallible call. -/
def newDatabaseResult (pingErr schemaErr migrateErr demoErr seedErr : Option String) :
    Except String Unit :=
  match pingErr with
  | some e => .error ("failed to ping database: " ++ e)
  | none =>
  match schemaErr with
  | some e => .error ("failed to initialize schema: " ++ e)
  | none =>
  match migrateErr with
  | some e => .error ("failed to run migrations: " ++ e)
  | none =>
  match demoErr with
  | some e => .error ("failed to create demo user: " ++ e)
  | none =>
  match seedErr with
  | some _ => .ok ()
  | none => .ok ()

/-! ## Schema manager (models.go InitSchema and migrate).  The live
schema is modelled as the list of tables with their column names plus
the set of index names; column types do not affect any claim. -/

/-- Catalog state of the store: existing tables with their columns, and
existing index names. -/
structure SchemaState where
  tables : List (String × List String)
  indexes : List String
deriving DecidableEq, Repr

/-- The store before any table exists. -/
def SchemaState.empty : SchemaState :=
  { tables := [], indexes := [] }

/-- True when the named table exists. -/
def hasTable (s : SchemaState) (t : String) : Bool :=
  s.tables.any (fun p => p.1 == t)

/-- Columns of the named table; introspection of a missing table
returns no rows. -/
def tableColumns (s : SchemaState) (t : String) : List String :=
  match s.tables.find? (fun p => p.1 == t) with
  | none => []
  | some p => p.2

/-- Effect of CREATE TABLE IF NOT EXISTS. -/
def createTableIfNotExists (s : SchemaState) (t : String) (cols : List String) :
    SchemaState :=
  if hasTable s t then s else { s with tables := s.tables ++ [(t, cols)] }

/-- Effect of CREATE INDEX IF NOT EXISTS. -/
def createIndexIfNotExists (s : SchemaState) (i : String) : SchemaState :=
  if s.indexes.contains i then s else { s with indexes := s.indexes ++ [i] }

/-- Per-entry effect of ALTER TABLE t ADD COLUMN c on the catalog. -/
def alterCols (t c : String) (q : String × List String) :
    String × List String :=
  if q.1 == t then (q.1, q.2 ++ [c]) else q

/-- Effect of ALTER TABLE t ADD COLUMN c: an error when the table is
missing or the column already exists, otherwise the column is
appended. -/
def alterTableAddColumn (s : SchemaState) (t c : String) :
    Except String SchemaState :=
  match s.tables.find? (fun p => p.1 == t) with
  | none => .error ("no such table: " ++ t)
  | some p =>
    if p.2.contains c then .error ("duplicate column name: " ++ c)
    else .ok { s with tables := s.tables.map (alterCols t c) }

/-- Tables created by InitSchema, in source order, with the column
names of their CREATE TABLE statements. -/
def schemaTables : List (String × List String) :=
  [("users", ["id", "email", "name", "password", "role", "created_at"]),
   ("categories", ["id", "name", "icon", "description", "created_at", "updated_at"]),
   ("patterns", ["id", "category_id", "name", "icon", "description", "theory",
                 "created_at", "updated_at"]),
   ("problems", ["id", "pattern_id", "title", "difficulty", "description",
                 "input", "output", "constraints", "sample_input",
                 "sample_output", "explanation", "notes",
                 "created_at", "updated_at"]),
   ("solutions", ["id", "problem_id", "language", "code",
                  "created_at", "updated_at"]),
   ("learning_topics", ["id", "name", "icon", "description", "slug",
                        "created_at", "updated_at"]),
   ("learning_resources", ["id", "topic_id", "title", "content", "type",
                           "url", "order_index", "created_at", "updated_at"]),
   ("roadmap_items", ["id", "topic_id", "title", "description",
                      "order_index", "status", "created_at", "updated_at"])]

/-- Indexes created by InitSchema, in source order. -/
def schemaIndexes : List String :=
  ["idx_patterns_category_id", "idx_problems_pattern_id",
   "idx_solutions_problem_id", "idx_learning_resources_topic_id",
   "idx_roadmap_items_topic_id"]

/-- Translation of InitSchema: every statement is CREATE ... IF NOT
EXISTS.  The isPostgres flag only selects the timestamp column type in
the source (TIMESTAMP versus DATETIME), which the catalog model does
not record. -/
def InitSchema (isPostgres : Bool) (s : SchemaState) : SchemaState :=
  let _ := isPostgres
  schemaIndexes.foldl createIndexIfNotExists
    (schemaTables.foldl (fun acc p => createTableIfNotExists acc p.1 p.2) s)

/-- Translation of migrate: introspect for the role column of users
(information_schema.columns on PostgreSQL, PRAGMA table_info on SQLite;
both denote the catalog lookup tableColumns here) and add it when
absent, then backfill NULL roles (row-level, no catalog effect); then
the same for the theory column of patterns.  The returned list records
the ALTER TABLE statements issued, as (table, column) pairs. -/
def migrate (isPostgres : Bool) (s : SchemaState) :
    Except String (SchemaState × List (String × String)) :=
  let _ := isPostgres
  let columnExists := (tableColumns s "users").contains "role"
  let step1 : Except String (SchemaState × List (String × String)) :=
    if columnExists then .ok (s, [])
    else
      match alterTableAddColumn s "users" "role" with
      | .error e => .error e
      | .ok s1 => .ok (s1, [("users", "role")])
  match step1 with
  | .error e => .error e
  | .ok (s1, a1) =>
    let theoryColumnExists := (tableColumns s1 "patterns").contains "theory"
    if theoryColumnExists then .ok (s1, a1)
    else
      match alterTableAddColumn s1 "patterns" "theory" with
      | .error e => .error e
      | .ok s2 => .ok (s2, a1 ++ [("patterns", "theory")])

/-! ## Auth guard (middleware.go AuthMiddleware) -/

/-- Point lookup SELECT role FROM users WHERE id = ?, keyed on the
token user id; no row is the usual sql.ErrNoRows failure. -/
def lookupRoleById (s : DBState) (userID : String) : Except String String :=
  match s.users.find? (fun u => u.id == userID) with
  | none => .error "sql: no rows in result set"
  | some u => .ok u.role

/-- Role resolution of AuthMiddleware: the role claim of the token when
it is a present, non-empty string (a missing or non-string claim reads
as the empty string); otherwise the database lookup result, with admin
as the fallback when that lookup fails. -/
def authMiddlewareRole (claimRole : Option String) (dbLookup : Except String String) :
    String :=
  let userRole := match claimRole with
    | some v => v
    | none => ""
  if userRole == "" then
    match dbLookup with
    | .ok r => r
    | .error _ => "admin"
  else userRole

/-! ## Login, Register and the readiness gate (handlers.go Login and
Register, main.go) -/

/-- Decoded login request body. -/
structure LoginBody where
  email : String
  password : String
deriving DecidableEq, Repr

/-- Decoded register request body. -/
structure RegisterBody where
  email : String
  password : String
  name : String
deriving DecidableEq, Repr

/-- Translation of Login.  bcryptOK stands for a successful
bcrypt.CompareHashAndPassword of the stored hash against the submitted
password.  The three lookup tiers of the source are the exact trimmed
match, the case-insensitive match, and the full scan with in-memory
case-folded comparison; finding a user whose role is empty triggers the
corrective UPDATE backfilling it to admin. -/
def Login (bcryptOK : String → String → Bool) (body : LoginBody) (s : DBState) :
    HResp × DBState :=
  if body.email == "" || body.password == "" then
    (.badRequest "Email and password are required", s)
  else
    let normalizedEmail := body.email.toLower.trim
    let trimmedEmail := body.email.trim
    let tier1 := s.users.find? (fun u => u.email == trimmedEmail)
    let tier2 := s.users.find? (fun u => u.email.toLower == normalizedEmail)
    let tier3 := s.users.find? (fun u => u.email.toLower.trim == normalizedEmail)
    let found := match tier1 with
      | some u => some u
      | none => match tier2 with
        | some u => some u
        | none => tier3
    match found with
    | none => (.unauthorized "User not found", s)
    | some u =>
      let s1 :=
        if u.role == "" then
          { s with users := s.users.map (fun v =>
            if v.id == u.id && v.role == "" then { v with role := "admin" } else v) }
        else s
      if u.password == "" then
        (.serverError "User account error: password hash is empty", s1)
      else if bcryptOK u.password body.password then (.ok, s1)
      else (.unauthorized "Invalid password", s1)

/-- Translation of Register.  hash stands for the bcrypt hash of the
submitted password; newId for the generateID() result.  New accounts
always get the admin role. -/
def Register (newId : String) (hash : String) (body : RegisterBody)
    (s : DBState) : HResp × DBState :=
  if body.email == "" || body.password == "" || body.name == "" then
    (.badRequest "Email, password, and name are required", s)
  else
    let existing := s.users.find? (fun u =>
      u.email == body.email || u.email.toLower == body.email.toLower)
    match existing with
    | some _ => (.conflict "User with this email already exists", s)
    | none =>
      let u : UserRow :=
        { id := newId, email := body.email, name := body.name,
          password := hash, role := "admin", createdAt := 0 }
      (.created, { s with users := s.users ++ [u] })

/-- Translation of the debug user-exists endpoint (main.go). -/
def DebugUserExists (email : String) (s : DBState) : HResp × DBState :=
  if email == "" then (.badRequest "Email parameter required", s)
  else (.ok, s)

/-- Readiness of the background database initialization: the two phases
a request can observe through checkDBReady (main.go), which reads the
ready flag and the handle under the read lock.  The flag is set only
after NewDatabase has finished schema creation, migration and seeding,
so the ready phase always carries a fully-initialized store. -/
inductive DBPhase where
  | initializing
  | ready
deriving DecidableEq, Repr

/-- One inbound HTTP request as routed by main.go. -/
inductive SReq where
  | health
  | login (bcryptOK : String → String → Bool) (body : LoginBody)
  | register (newId hash : String) (body : RegisterBody)
  | debugUserExists (email : String)
  | api (role : String) (r : Req)

/-- True on the routes whose handlers touch the database; only the
health check answers without it. -/
def SReq.touchesDB : SReq → Bool
  | .health => false
  | .login .. => true
  | .register .. => true
  | .debugUserExists .. => true
  | .api .. => true

/-- Translation of the route table of main.go: the health check always
answers 200; login, register, the debug endpoint and every /api route
first consult checkDBReady and answer 503 while initialization is still
running, and dispatch to their handler once the phase is ready. -/
def serve (phase : DBPhase) (fkEnforced : Bool) (req : SReq) (s : DBState) :
    HResp × DBState :=
  match req with
  | .health => (.ok, s)
  | .login bcryptOK body =>
    if phase == .initializing then
      (.unavailable "Database initializing, please wait...", s)
    else Login bcryptOK body s
  | .register newId hash body =>
    if phase == .initializing then
      (.unavailable "Database initializing, please wait...", s)
    else Register newId hash body s
  | .debugUserExists email =>
    if phase == .initializing then (.unavailable "Database initializing", s)
    else DebugUserExists email s
  | .api role r =>
    if phase == .initializing then
      (.unavailable "Database initializing, please wait...", s)
    else handle fkEnforced role r s

/-! ## Concrete fixtures used by the closed theorems -/

/-- A category with one pattern, one problem and one solution below it:
the scenario of the cascade-delete property. -/
def dbCascadeFixture : DBState :=
  { users := [],
    categories := [{ id := "c1", name := "Arrays", icon := "Grid",
                     description := "", createdAt := 0, updatedAt := 0 }],
    patterns := [{ id := "p1", categoryId := "c1", name := "Two Pointers",
                   icon := "Code", description := "", theory := "",
                   createdAt := 0, updatedAt := 0 }],
    problems := [{ id := "pr1", patternId := "p1", title := "Valid Palindrome",
                   difficulty := "Easy", description := "", input := "",
                   output := "", constraints := "", sampleInput := "",
                   sampleOutput := "", explanation := "", notes := "",
                   createdAt := 0, updatedAt := 0 }],
    solutions := [{ id := "s1", problemId := "pr1", language := "cpp",
                    code := "int main()", createdAt := 0, updatedAt := 0 }],
    learningTopics := [], learningResources := [], roadmapItems := [] }

/-!
# Theorems

One theorem per claim of the specification, in claim order, together
with the counterexamples and witnesses the claim statuses require.
-/

/-- C1.  The claim asserts that deleting a Category removes all
descendant Patterns, Problems and Solutions on both engines, so that a
descendant Problem afterwards fetches as not-found with no orphan rows.
This fails on the embedded engine: the connection string built by
NewDatabase never enables foreign-key enforcement, which the embedded
engine keeps off by default, so the ON DELETE CASCADE clauses of the
schema are inert and DeleteCategory only removes the categories row.
At the fixture store, deleting category c1 leaves the pattern, problem
and solution rows orphaned and GetProblem pr1 still succeeds, while
under the client/server engine (enforced foreign keys) the cascade
behaves exactly as claimed. -/
theorem c1_embedded_cascade_code_bug :
    dsnEnablesForeignKeys (sqliteConnString "./algovault.db") = false ∧
    (DeleteCategory "admin" (dsnEnablesForeignKeys (sqliteConnString "./algovault.db"))
        "c1" dbCascadeFixture).2 =
      { dbCascadeFixture with categories := [] } ∧
    (GetProblem "pr1"
      (DeleteCategory "admin" false "c1" dbCascadeFixture).2).1 = .ok ∧
    (DeleteCategory "admin" false "c1" dbCascadeFixture).2.patterns ≠ [] ∧
    (DeleteCategory "admin" false "c1" dbCascadeFixture).2.problems ≠ [] ∧
    (DeleteCategory "admin" false "c1" dbCascadeFixture).2.solutions ≠ [] ∧
    (DeleteCategory "admin" true "c1" dbCascadeFixture).2 =
      { dbCascadeFixture with categories := [], patterns := [],
                              problems := [], solutions := [] } ∧
    (GetProblem "pr1"
      (DeleteCategory "admin" true "c1" dbCascadeFixture).2).1 =
        .notFound "Problem not found" := by
  decide

/-- C6.  Counterexample to the claim that every seeding failure is
non-fatal: a createDemoUser failure makes NewDatabase return an error
(models.go wraps and returns it), so demo-account seeding is fatal. -/
theorem c6_demo_seed_failure_fatal_cex :
    newDatabaseResult none none none (some "disk full") none =
      .error "failed to create demo user: disk full" := by
  rfl

/-- C6 (amended).  Fixed-topic seeding failures (seedLearningData) are
logged and non-fatal: NewDatabase still succeeds; but a demo-account
seeding failure (createDemoUser) is fatal, as are ping, schema-create
and migrate failures.  Both seeding steps run only after schema create
and migrate have completed without error. -/
theorem c6_seeding_failure_semantics (e : String) :
    newDatabaseResult none none none none (some e) = .ok () ∧
    newDatabaseResult none none none none none = .ok () ∧
    newDatabaseResult none none none (some e) none =
      .error ("failed to create demo user: " ++ e) ∧
    newDatabaseResult none (some e) none none none =
      .error ("failed to initialize schema: " ++ e) ∧
    newDatabaseResult none none (some e) none none =
      .error ("failed to run migrations: " ++ e) := by
  exact ⟨rfl, rfl, rfl, rfl, rfl⟩

/-- C8.  Role resolution of AuthMiddleware: the embedded role claim
wins whenever it is present and non-empty; a missing claim and an empty
claim behave identically, falling back to the users-table point lookup
keyed on the token user id; the non-restrictive admin default applies
exactly when that lookup fails.  The last two conjuncts pin the lookup
itself to the users rows. -/
theorem c8_role_resolution (claim : String) (lk : Except String String)
    (s : DBState) (uid : String) :
    (claim ≠ "" → authMiddlewareRole (some claim) lk = claim) ∧
    authMiddlewareRole none lk = authMiddlewareRole (some "") lk ∧
    (∀ r : String, lk = .ok r → authMiddlewareRole none lk = r) ∧
    (∀ e : String, lk = .error e → authMiddlewareRole none lk = "admin") ∧
    (∀ u : UserRow, s.users.find? (fun v => v.id == uid) = some u →
      lookupRoleById s uid = .ok u.role) ∧
    (s.users.find? (fun v => v.id == uid) = none →
      lookupRoleById s uid = .error "sql: no rows in result set") := by
  refine ⟨fun h => ?_, rfl, fun r hr => ?_, fun e he => ?_, fun u hu => ?_, fun hn => ?_⟩
  · have hb : (claim == "") = false := by
      simpa using h
    simp [authMiddlewareRole, hb]
  · simp [authMiddlewareRole, hr]
  · simp [authMiddlewareRole, he]
  · simp [lookupRoleById, hu]
  · simp [lookupRoleById, hn]

/-- C8 witness: the theorem applied at concrete inputs.  A token whose
claim reads demo resolves to demo regardless of the database; with no
claim the role comes from the stored row, and from the admin default
when no row exists. -/
theorem c8_role_resolution_witness :
    authMiddlewareRole (some "demo") (.ok "x") = "demo" ∧
    authMiddlewareRole none (.ok "demo") = "demo" ∧
    authMiddlewareRole none (.error "sql: no rows in result set") = "admin" :=
  ⟨(c8_role_resolution "demo" (.ok "x") DBState.empty "u").1 (by decide),
   (c8_role_resolution "demo" (.ok "demo") DBState.empty "u").2.2.1 "demo" rfl,
   (c8_role_resolution "demo" (.error "sql: no rows in result set")
      DBState.empty "u").2.2.2.1 "sql: no rows in result set" rfl⟩

/-- C10.  ClearAllData deletes every row of exactly the seven content
and learning tables, in the source order recorded by clearTables; that
order places every child table strictly before the parent its foreign
key references; no statement touches the users table, so the users list
of the resulting state is untouched (the record update leaves it as in
s). -/
theorem c10_clear_all_data_frame (s : DBState) :
    ClearAllData "admin" s =
      (.ok, { s with
              categories := [], patterns := [], problems := [],
              solutions := [], learningTopics := [], learningResources := [],
              roadmapItems := [] }) ∧
    (clearTables.foldl deleteAllFrom s).users = s.users ∧
    clearTables = ["solutions", "problems", "patterns", "categories",
                   "learning_resources", "roadmap_items", "learning_topics"] ∧
    clearTables.contains "users" = false ∧
    clearTables.all (fun t =>
      match fkParentTable t with
      | none => true
      | some pt => Nat.blt (clearTables.indexOf t) (clearTables.indexOf pt)) = true := by
  refine ⟨rfl, rfl, rfl, by decide, by decide⟩

/-- The scan loop copies a placeholder-free block unchanged and keeps
its counter. -/
theorem convAux_append_no_q (k : Nat) (seg rest : List Char)
    (h : '?' ∉ seg) : convAux k (seg ++ rest) = seg ++ convAux k rest := by
  induction seg with
  | nil => simp
  | cons c cs ih =>
    have hc : (c == '?') = false := by
      simp only [List.mem_cons, not_or] at h
      exact beq_eq_false_iff_ne.mpr (fun hcc => h.1 hcc.symm)
    have hcs : '?' ∉ cs := fun hm => h (List.mem_cons_of_mem _ hm)
    simp [convAux, hc, ih hcs]

/-- The scan loop maps the reassembly of placeholder-free segments with
question marks to their reassembly with the positional markers $k,
$(k+1), and so on. -/
theorem convAux_joinWithQ (ss : List (List Char))
    (h : ∀ seg ∈ ss, '?' ∉ seg) :
    ∀ k : Nat, convAux k (joinWithQ ss) = withMarkers k ss := by
  induction ss with
  | nil => intro k; rfl
  | cons seg rest ih =>
    intro k
    have hseg : '?' ∉ seg := h seg (List.mem_cons_self _ _)
    have hrest : ∀ t ∈ rest, '?' ∉ t := fun t ht => h t (List.mem_cons_of_mem _ ht)
    cases rest with
    | nil =>
      have := convAux_append_no_q k seg [] hseg
      simpa [joinWithQ, withMarkers, convAux] using this
    | cons r rs =>
      have h1 : convAux k (seg ++ '?' :: joinWithQ (r :: rs)) =
          seg ++ convAux k ('?' :: joinWithQ (r :: rs)) :=
        convAux_append_no_q k seg _ hseg
      have h2 : convAux k ('?' :: joinWithQ (r :: rs)) =
          positionalMarker k ++ convAux (k + 1) (joinWithQ (r :: rs)) := by
        simp [convAux, positionalMarker]
      calc convAux k (joinWithQ (seg :: r :: rs))
          = convAux k (seg ++ '?' :: joinWithQ (r :: rs)) := rfl
        _ = seg ++ convAux k ('?' :: joinWithQ (r :: rs)) := h1
        _ = seg ++ (positionalMarker k ++ convAux (k + 1) (joinWithQ (r :: rs))) := by
              rw [h2]
        _ = seg ++ positionalMarker k ++ withMarkers (k + 1) (r :: rs) := by
              rw [ih hrest (k + 1), List.append_assoc]
        _ = withMarkers k (seg :: r :: rs) := rfl

/-- Reassembling N+1 placeholder-free segments yields exactly N
placeholder characters. -/
theorem count_joinWithQ (ss : List (List Char)) (h : ∀ seg ∈ ss, '?' ∉ seg) :
    (joinWithQ ss).count '?' = ss.length - 1 := by
  induction ss with
  | nil => rfl
  | cons seg rest ih =>
    have hseg : '?' ∉ seg := h seg (List.mem_cons_self _ _)
    have hrest : ∀ t ∈ rest, '?' ∉ t := fun t ht => h t (List.mem_cons_of_mem _ ht)
    have hcount : seg.count '?' = 0 := List.count_eq_zero.mpr hseg
    cases rest with
    | nil => simpa [joinWithQ] using hcount
    | cons r rs =>
      have hstep : (joinWithQ (seg :: r :: rs)).count '?' =
          seg.count '?' + ((r :: rs).length - 1) + 1 := by
        simp [joinWithQ, List.count_append, List.count_cons, ih hrest]
        ring
      rw [hstep, hcount]
      simp only [List.length_cons]
      omega

/-- C2.  Under the embedded-engine flag both translator copies return
the input unchanged.  Under the client/server flag, any SQL text — it
factors uniquely as placeholder-free segments joined by its N
placeholder characters — is rewritten so that the i-th placeholder
becomes the 1-based marker $i, the markers appear in order $1..$N, and
every segment character is copied unchanged; the two translator copies
agree. -/
theorem c2_convertPlaceholders_spec (ss : List (List Char))
    (h : ∀ seg ∈ ss, '?' ∉ seg) (q : String) :
    convertPlaceholders false q = q ∧
    ConvertPlaceholders false q = q ∧
    (convertPlaceholders true (String.mk (joinWithQ ss))).toList = withMarkers 1 ss ∧
    ConvertPlaceholders true (String.mk (joinWithQ ss)) =
      convertPlaceholders true (String.mk (joinWithQ ss)) ∧
    (String.mk (joinWithQ ss)).toList.count '?' = ss.length - 1 := by
  refine ⟨rfl, rfl, ?_, rfl, ?_⟩
  · show String.toList (String.mk (convAux 1 (String.toList (String.mk (joinWithQ ss))))) = _
    simpa using convAux_joinWithQ ss h 1
  · simpa using count_joinWithQ ss h

/-- C2 witness: the theorem applied to the segments of a concrete
two-placeholder query; both conclusions evaluate on the nose. -/
theorem c2_convertPlaceholders_spec_witness :
    convertPlaceholders false "SELECT id FROM users WHERE email = ?" =
      "SELECT id FROM users WHERE email = ?" ∧
    (convertPlaceholders true
        (String.mk (joinWithQ
          ["a = ".toList, " AND b = ".toList, "".toList]))).toList =
      withMarkers 1 ["a = ".toList, " AND b = ".toList, "".toList] := by
  have h := c2_convertPlaceholders_spec
    ["a = ".toList, " AND b = ".toList, "".toList]
    (by decide) "SELECT id FROM users WHERE email = ?"
  exact ⟨h.1, h.2.2.1⟩

/-- The problem point lookup never changes the store. -/
theorem GetProblem_state (pid : String) (s : DBState) :
    (GetProblem pid s).2 = s := by
  unfold GetProblem
  split <;> rfl

/-- The problem point lookup never answers forbidden. -/
theorem GetProblem_not_forbidden (pid : String) (s : DBState) :
    (GetProblem pid s).1.isForbidden = false := by
  unfold GetProblem
  split <;> rfl

/-- The topic-by-slug lookup never changes the store. -/
theorem GetLearningTopicBySlug_state (slug : String) (s : DBState) :
    (GetLearningTopicBySlug slug s).2 = s := by
  unfold GetLearningTopicBySlug
  split <;> rfl

/-- The topic-by-slug lookup never answers forbidden. -/
theorem GetLearningTopicBySlug_not_forbidden (slug : String) (s : DBState) :
    (GetLearningTopicBySlug slug s).1.isForbidden = false := by
  unfold GetLearningTopicBySlug
  split <;> rfl

/-- C4.  Every mutating route — create, update and delete on Category,
Pattern and Problem, the pattern-theory update, the bulk import and the
bulk clear — answers forbidden to the demo role before performing any
write, leaving the store exactly as it was; every read route answers
for the demo caller exactly as it would for an admin caller, never
forbidden, and without changing the store. -/
theorem c4_demo_role_guard (fk : Bool) (req : Req) (s : DBState) :
    (req.isMutating = true →
      (handle fk "demo" req s).1.isForbidden = true ∧
      (handle fk "demo" req s).2 = s) ∧
    (req.isMutating = false →
      handle fk "demo" req s = handle fk "admin" req s ∧
      (handle fk "demo" req s).2 = s ∧
      (handle fk "demo" req s).1.isForbidden = false) := by
  cases req <;>
    constructor <;>
    intro h <;>
    first
      | (simp only [Req.isMutating] at h; exact absurd h (by decide))
      | exact ⟨rfl, rfl⟩
      | exact ⟨rfl, rfl, rfl⟩
      | exact ⟨rfl, GetProblem_state _ _, GetProblem_not_forbidden _ _⟩
      | exact ⟨rfl, GetLearningTopicBySlug_state _ _,
              GetLearningTopicBySlug_not_forbidden _ _⟩

/-- C4 witness: the theorem applied to a concrete mutating request (the
bulk clear) and a concrete read request for the demo caller. -/
theorem c4_demo_role_guard_witness :
    (handle false "demo" .clearAllData dbCascadeFixture).1.isForbidden = true ∧
    (handle false "demo" .clearAllData dbCascadeFixture).2 = dbCascadeFixture ∧
    handle false "demo" (.getProblem "pr1") dbCascadeFixture =
      handle false "admin" (.getProblem "pr1") dbCascadeFixture := by
  refine ⟨((c4_demo_role_guard false .clearAllData dbCascadeFixture).1 (by decide)).1,
          ((c4_demo_role_guard false .clearAllData dbCascadeFixture).1 (by decide)).2,
          ((c4_demo_role_guard false (.getProblem "pr1") dbCascadeFixture).2
            (by decide)).1⟩

/-- No outcome of the login handler is the initializing status. -/
theorem Login_not_unavailable (bOK : String → String → Bool)
    (body : LoginBody) (s : DBState) :
    (Login bOK body s).1.isUnavailable = false := by
  unfold Login
  dsimp only
  repeat' split
  all_goals rfl

/-- No outcome of the register handler is the initializing status. -/
theorem Register_not_unavailable (newId hash : String) (body : RegisterBody)
    (s : DBState) : (Register newId hash body s).1.isUnavailable = false := by
  unfold Register
  dsimp only
  repeat' split
  all_goals rfl

/-- No outcome of the debug endpoint is the initializing status. -/
theorem DebugUserExists_not_unavailable (email : String) (s : DBState) :
    (DebugUserExists email s).1.isUnavailable = false := by
  unfold DebugUserExists
  split <;> rfl

/-- No outcome of any authenticated content handler is the initializing
status. -/
theorem handle_not_unavailable (fk : Bool) (role : String) (r : Req)
    (s : DBState) : (handle fk role r s).1.isUnavailable = false := by
  cases r <;>
    simp only [handle, CreateCategory, UpdateCategory, DeleteCategory,
      CreatePattern, UpdatePattern, DeletePattern, UpdatePatternTheory,
      CreateProblem, UpdateProblem, DeleteProblem, FetchAllExternalData,
      ClearAllData, GetCategories, GetPatterns, GetProblems, GetProblem,
      GetLearningTopics, GetLearningTopicBySlug, GetLearningResources,
      GetRoadmap] <;>
    (repeat' split) <;> rfl

/-- C7.  Every route whose handler touches the database — login and
register included — observes the readiness gate: while initialization
is still running it answers the distinct initializing outcome (503)
without reading or writing the store; the health route answers without
the database; and once the phase is ready no route ever answers the
initializing outcome, every handler running against the
fully-initialized store.  The single-slot gate itself (mutex plus
one-shot channel in main.go) is modelled by the two-phase DBPhase: the
ready phase exists only after NewDatabase has completed create, migrate
and seeding, so no request observes a partially-migrated schema. -/
theorem c7_readiness_gate (fk : Bool) (req : SReq) (s : DBState) :
    (req.touchesDB = true →
      (serve .initializing fk req s).1.isUnavailable = true ∧
      (serve .initializing fk req s).2 = s) ∧
    (req.touchesDB = false → serve .initializing fk req s = (.ok, s)) ∧
    (serve .ready fk req s).1.isUnavailable = false := by
  refine ⟨fun h => ?_, fun h => ?_, ?_⟩
  · cases req <;>
      first
        | (simp only [SReq.touchesDB] at h; exact absurd h (by decide))
        | exact ⟨rfl, rfl⟩
  · cases req <;>
      first
        | (simp only [SReq.touchesDB] at h; exact absurd h (by decide))
        | rfl
  · cases req with
    | health => rfl
    | login bOK body => exact Login_not_unavailable bOK body s
    | register newId hash body => exact Register_not_unavailable newId hash body s
    | debugUserExists email => exact DebugUserExists_not_unavailable email s
    | api role r => exact handle_not_unavailable fk role r s

/-- C7 witness: the theorem applied to a concrete login request while
initialization runs, and to the health route. -/
theorem c7_readiness_gate_witness :
    (serve .initializing false
      (.login (fun _ _ => true) { email := "demo@algovault.com", password := "demo123" })
      DBState.empty).1.isUnavailable = true ∧
    (serve .initializing false
      (.login (fun _ _ => true) { email := "demo@algovault.com", password := "demo123" })
      DBState.empty).2 = DBState.empty ∧
    serve .initializing false .health DBState.empty = (.ok, DBState.empty) := by
  refine ⟨((c7_readiness_gate false
      (.login (fun _ _ => true) { email := "demo@algovault.com", password := "demo123" })
      DBState.empty).1 rfl).1,
    ((c7_readiness_gate false
      (.login (fun _ _ => true) { email := "demo@algovault.com", password := "demo123" })
      DBState.empty).1 rfl).2,
    (c7_readiness_gate false .health DBState.empty).2.1 rfl⟩

/-- The in-place solution update keeps the WHERE predicate of a row. -/
theorem solMatches_updSol (pid lang code : String) (u : Nat) (r : SolutionRow) :
    solMatches pid lang (updSol code u r) = solMatches pid lang r :=
  rfl

/-- The in-place solution update keeps the identifier of a row. -/
theorem updSol_id (code : String) (u : Nat) (r : SolutionRow) :
    (updSol code u r).id = r.id :=
  rfl

/-- A search that fails on a prefix continues in the suffix. -/
theorem find?_append_of_none {α : Type} (p : α → Bool) (l1 l2 : List α)
    (h : l1.find? p = none) : (l1 ++ l2).find? p = l2.find? p := by
  induction l1 with
  | nil => rfl
  | cons a t ih =>
    cases hpa : p a with
    | true => rw [List.find?_cons_of_pos _ hpa] at h; exact absurd h (by simp)
    | false =>
      rw [List.find?_cons_of_neg _ (by simp [hpa])] at h
      rw [List.cons_append, List.find?_cons_of_neg _ (by simp [hpa])]
      exact ih h

/-- Searching the updated list finds the updated first match. -/
theorem find?_updSolWhere (pid lang code : String) (u : Nat)
    (l : List SolutionRow) :
    (updSolWhere pid lang code u l).find? (solMatches pid lang)
      = (l.find? (solMatches pid lang)).map (updSol code u) := by
  induction l with
  | nil => rfl
  | cons a t ih =>
    cases hpa : solMatches pid lang a with
    | true =>
      have hupd : solMatches pid lang (updSol code u a) = true := by
        rw [solMatches_updSol]; exact hpa
      simp [updSolWhere, hpa, List.find?_cons, hupd]
    | false =>
      have hupd : solMatches pid lang (updSol code u a) = false := by
        rw [solMatches_updSol]; exact hpa
      simpa [updSolWhere, hpa, List.find?_cons, hupd] using ih

/-- Filtering the updated list for matching rows updates the matching
rows of the filtered original. -/
theorem filter_updSolWhere_pos (pid lang code : String) (u : Nat)
    (l : List SolutionRow) :
    (updSolWhere pid lang code u l).filter (solMatches pid lang)
      = (l.filter (solMatches pid lang)).map (updSol code u) := by
  induction l with
  | nil => rfl
  | cons a t ih =>
    cases hpa : solMatches pid lang a with
    | true =>
      have hupd : solMatches pid lang (updSol code u a) = true := by
        rw [solMatches_updSol]; exact hpa
      simp [updSolWhere, hpa, List.filter_cons, hupd] at ih ⊢
      exact ih
    | false =>
      simpa [updSolWhere, hpa, List.filter_cons] using ih

/-- The rows outside the WHERE clause of the in-place update are
untouched. -/
theorem filter_updSolWhere_neg (pid lang code : String) (u : Nat)
    (l : List SolutionRow) :
    (updSolWhere pid lang code u l).filter (fun r => !solMatches pid lang r)
      = l.filter (fun r => !solMatches pid lang r) := by
  induction l with
  | nil => rfl
  | cons a t ih =>
    cases hpa : solMatches pid lang a with
    | true =>
      have hupd : solMatches pid lang (updSol code u a) = true := by
        rw [solMatches_updSol]; exact hpa
      simp [updSolWhere, hpa, List.filter_cons, hupd] at ih ⊢
      exact ih
    | false =>
      simpa [updSolWhere, hpa, List.filter_cons] using ih

/-- After the in-place update, every row matching the WHERE clause
carries the submitted code. -/
theorem code_of_mem_updSolWhere (pid lang code : String) (u : Nat)
    (l : List SolutionRow) :
    ∀ r ∈ updSolWhere pid lang code u l,
      solMatches pid lang r = true → r.code = code := by
  induction l with
  | nil => intro r hr; simp [updSolWhere] at hr
  | cons a t ih =>
    intro r hr hm
    simp only [updSolWhere, List.map_cons, List.mem_cons] at hr
    rcases hr with hr | hr
    · subst hr
      cases hpa : solMatches pid lang a with
      | true => simp [hpa, updSol]
      | false => simp [hpa] at hm
    · exact ih r hr hm

/-- C3.  Upserting a solution twice for the same (problem, language)
pair, starting from any store satisfying the per-language uniqueness
invariant, leaves exactly one matching row; the identifier after the
second call equals the identifier after the first call; every matching
row carries the code of the second call; and rows outside the
(problem, language) pair — other languages of the problem and other
problems — are exactly as before. -/
theorem c3_solution_upsert_idempotent
    (sols : List SolutionRow) (pid lang id1 id2 code1 code2 : String)
    (u1 c1 u2 c2 : Nat)
    (hInv : (sols.filter (solMatches pid lang)).length ≤ 1) :
    ((upsertSolution id2 u2 c2 pid lang code2
        (upsertSolution id1 u1 c1 pid lang code1 sols)).filter
        (solMatches pid lang)).length = 1 ∧
    ((upsertSolution id2 u2 c2 pid lang code2
        (upsertSolution id1 u1 c1 pid lang code1 sols)).find?
        (solMatches pid lang)).map SolutionRow.id
      = ((upsertSolution id1 u1 c1 pid lang code1 sols).find?
        (solMatches pid lang)).map SolutionRow.id ∧
    (∀ r ∈ upsertSolution id2 u2 c2 pid lang code2
        (upsertSolution id1 u1 c1 pid lang code1 sols),
      solMatches pid lang r = true → r.code = code2) ∧
    (upsertSolution id2 u2 c2 pid lang code2
        (upsertSolution id1 u1 c1 pid lang code1 sols)).filter
        (fun r => !solMatches pid lang r)
      = sols.filter (fun r => !solMatches pid lang r) := by
  cases h0 : sols.find? (solMatches pid lang) with
  | none =>
    set row1 : SolutionRow :=
      { id := id1, problemId := pid, language := lang, code := code1,
        createdAt := c1, updatedAt := u1 } with hrow1
    have hprow1 : solMatches pid lang row1 = true := by
      simp [solMatches, hrow1]
    have hs1 : upsertSolution id1 u1 c1 pid lang code1 sols = sols ++ [row1] := by
      unfold upsertSolution
      rw [h0]
    have hfind1 : (sols ++ [row1]).find? (solMatches pid lang) = some row1 := by
      rw [find?_append_of_none _ _ _ h0, List.find?_cons_of_pos _ hprow1]
    have hfilterNil : sols.filter (solMatches pid lang) = [] :=
      List.filter_eq_nil_iff.mpr (fun a ha hpa =>
        (List.find?_eq_none.mp h0 a ha) hpa)
    have hfilter1 : (sols ++ [row1]).filter (solMatches pid lang) = [row1] := by
      rw [List.filter_append, hfilterNil, List.nil_append]
      simp [List.filter_cons, hprow1]
    have hs2 : upsertSolution id2 u2 c2 pid lang code2
        (upsertSolution id1 u1 c1 pid lang code1 sols)
      = updSolWhere pid lang code2 u2 (sols ++ [row1]) := by
      rw [hs1]
      unfold upsertSolution
      rw [hfind1]
    refine ⟨?_, ?_, ?_, ?_⟩
    · rw [hs2, filter_updSolWhere_pos, hfilter1]
      rfl
    · rw [hs2, hs1, find?_updSolWhere, hfind1]
      simp [updSol_id]
    · intro r hr hm
      rw [hs2] at hr
      exact code_of_mem_updSolWhere _ _ _ _ _ r hr hm
    · rw [hs2, filter_updSolWhere_neg, List.filter_append]
      simp [List.filter_cons, hprow1]
  | some r0 =>
    have hmem : r0 ∈ sols := List.mem_of_find?_eq_some h0
    have hpr0 : solMatches pid lang r0 = true := List.find?_some h0
    have hlen1 : (sols.filter (solMatches pid lang)).length = 1 := by
      have hmemf : r0 ∈ sols.filter (solMatches pid lang) :=
        List.mem_filter.mpr ⟨hmem, hpr0⟩
      have : 0 < (sols.filter (solMatches pid lang)).length :=
        List.length_pos.mpr (fun hnil => by simp [hnil] at hmemf)
      omega
    have hs1 : upsertSolution id1 u1 c1 pid lang code1 sols
        = updSolWhere pid lang code1 u1 sols := by
      unfold upsertSolution
      rw [h0]
    have hfind1 : (updSolWhere pid lang code1 u1 sols).find? (solMatches pid lang)
        = some (updSol code1 u1 r0) := by
      rw [find?_updSolWhere, h0]
      rfl
    have hs2 : upsertSolution id2 u2 c2 pid lang code2
        (upsertSolution id1 u1 c1 pid lang code1 sols)
      = updSolWhere pid lang code2 u2 (updSolWhere pid lang code1 u1 sols) := by
      rw [hs1]
      unfold upsertSolution
      rw [hfind1]
    refine ⟨?_, ?_, ?_, ?_⟩
    · rw [hs2, filter_updSolWhere_pos, filter_updSolWhere_pos]
      simpa using hlen1
    · rw [hs2, hs1, find?_updSolWhere, hfind1]
      simp [updSol_id]
    · intro r hr hm
      rw [hs2] at hr
      exact code_of_mem_updSolWhere _ _ _ _ _ r hr hm
    · rw [hs2, filter_updSolWhere_neg, filter_updSolWhere_neg]

/-- C3 witness: the theorem applied to the empty solutions table — the
first upsert inserts a cpp row, the second updates it in place, leaving
one row whose identifier is the one minted by the first call and whose
code is the second submission. -/
theorem c3_solution_upsert_idempotent_witness :
    ((upsertSolution "sol-b" 3 4 "pr1" "cpp" "code-two"
        (upsertSolution "sol-a" 1 2 "pr1" "cpp" "code-one" [])).filter
        (solMatches "pr1" "cpp")).length = 1 ∧
    ((upsertSolution "sol-b" 3 4 "pr1" "cpp" "code-two"
        (upsertSolution "sol-a" 1 2 "pr1" "cpp" "code-one" [])).find?
        (solMatches "pr1" "cpp")).map SolutionRow.id
      = ((upsertSolution "sol-a" 1 2 "pr1" "cpp" "code-one" []).find?
        (solMatches "pr1" "cpp")).map SolutionRow.id := by
  have h := c3_solution_upsert_idempotent [] "pr1" "cpp" "sol-a" "sol-b"
    "code-one" "code-two" 1 2 3 4 (by decide)
  exact ⟨h.1, h.2.1⟩

/-- C9 counterexample.  The claim asserts created_at = updated_at for
every created entity, but each create handler calls time.Now() twice —
once for CreatedAt and again for UpdatedAt — and nothing forces the two
readings to coincide.  With consecutive readings 0 and 1 (realizable,
since the clock can advance between the two calls), the category
created by CreateCategory is stored with created_at 0 and updated_at 1,
which differ. -/
theorem c9_created_at_neq_updated_at_cex :
    ((CreateCategory "admin" "fresh-id" 0 1
        { id := "client-chosen", name := "Arrays", icon := "Grid",
          description := "d", createdAt := 9, updatedAt := 9 }
        DBState.empty).2.categories.map
      (fun cr => (cr.id, cr.createdAt, cr.updatedAt)))
      = [("fresh-id", 0, 1)] ∧ (0 : Nat) ≠ 1 := by
  decide

/-- C9 (amended).  Every create operation — Category, Pattern, Problem,
and the Solution insert path of the upsert — stores the freshly
generated identifier (the generateID() sample), ignoring any
client-supplied id, and stores created_at and updated_at from the two
back-to-back time.Now() readings taken at creation; the two stored
timestamps are equal exactly when those readings coincide, which the
code does not itself guarantee.  (Randomness of the identifier is a
property of crypto/rand, outside the model: what the code guarantees is
that the stored id is the generated one.) -/
theorem c9_create_semantics (newId catId patId pid lang code solId : String)
    (n1 n2 u c : Nat) (catBody : CategoryRow) (patBody : PatternRow)
    (probBody : ProblemPayload) (gen : Nat → String) (clock : Nat → Nat)
    (sols : List SolutionRow) (s : DBState) :
    (CreateCategory "admin" newId n1 n2 catBody s).2.categories
      = s.categories ++ [{ id := newId, name := catBody.name,
                           icon := catBody.icon,
                           description := catBody.description,
                           createdAt := n1, updatedAt := n2 }] ∧
    (CreatePattern "admin" catId newId n1 n2 patBody s).2.patterns
      = s.patterns ++ [{ id := newId, categoryId := catId,
                         name := patBody.name, icon := patBody.icon,
                         description := patBody.description,
                         theory := patBody.theory,
                         createdAt := n1, updatedAt := n2 }] ∧
    (CreateProblem "admin" patId newId n1 n2 gen clock probBody s).2.problems
      = s.problems ++ [{ probBody.row with
                         id := newId, patternId := patId,
                         createdAt := n1, updatedAt := n2 }] ∧
    (sols.find? (solMatches pid lang) = none →
      upsertSolution solId u c pid lang code sols
        = sols ++ [{ id := solId, problemId := pid, language := lang,
                     code := code, createdAt := c, updatedAt := u }]) ∧
    (n1 = n2 →
      ∀ r ∈ (CreateCategory "admin" newId n1 n2 catBody s).2.categories,
        r ∈ s.categories ∨ r.createdAt = r.updatedAt) := by
  refine ⟨rfl, rfl, rfl, fun h => ?_, fun he r hr => ?_⟩
  · unfold upsertSolution
    rw [h]
  · have : r ∈ s.categories ++ [{ id := newId, name := catBody.name,
                                  icon := catBody.icon,
                                  description := catBody.description,
                                  createdAt := n1,
                                  updatedAt := n2 : CategoryRow }] := hr
    rcases List.mem_append.mp this with hl | hrr
    · exact Or.inl hl
    · right
      rcases List.mem_singleton.mp hrr with rfl
      simpa using he

/-- C9 witness: the amended theorem applied at coinciding clock
readings — the created category and the inserted solution then carry
equal created_at and updated_at, and the stored ids are the generated
ones, not the client-supplied ones. -/
theorem c9_create_semantics_witness :
    (CreateCategory "admin" "fresh-id" 5 5
        { id := "client-chosen", name := "Arrays", icon := "Grid",
          description := "d", createdAt := 9, updatedAt := 9 }
        DBState.empty).2.categories
      = [{ id := "fresh-id", name := "Arrays", icon := "Grid",
           description := "d", createdAt := 5, updatedAt := 5 }] ∧
    upsertSolution "sol-1" 7 7 "prX" "go" "package main" []
      = [{ id := "sol-1", problemId := "prX", language := "go",
           code := "package main", createdAt := 7, updatedAt := 7 }] := by
  have h := c9_create_semantics "fresh-id" "cat" "pat" "prX" "go"
    "package main" "sol-1" 5 5 7 7
    { id := "client-chosen", name := "Arrays", icon := "Grid",
      description := "d", createdAt := 9, updatedAt := 9 }
    { id := "", categoryId := "", name := "", icon := "", description := "",
      theory := "", createdAt := 0, updatedAt := 0 }
    { row := { id := "", patternId := "", title := "", difficulty := "",
               description := "", input := "", output := "", constraints := "",
               sampleInput := "", sampleOutput := "", explanation := "",
               notes := "", createdAt := 0, updatedAt := 0 },
      solutions := [] }
    (fun _ => "") (fun _ => 0) [] DBState.empty
  exact ⟨by simpa using h.1, by simpa using h.2.2.2.1 rfl⟩

/-- A successful search on a prefix is a successful search on the whole
list. -/
theorem find?_append_of_some {α : Type} (p : α → Bool) (l1 l2 : List α)
    (v : α) (h : l1.find? p = some v) : (l1 ++ l2).find? p = some v := by
  induction l1 with
  | nil => simp at h
  | cons a t ih =>
    cases hpa : p a with
    | true =>
      rw [List.find?_cons_of_pos _ hpa] at h
      rw [List.cons_append, List.find?_cons_of_pos _ hpa]
      exact h
    | false =>
      rw [List.find?_cons_of_neg _ (by simp [hpa])] at h
      rw [List.cons_append, List.find?_cons_of_neg _ (by simp [hpa])]
      exact ih h

/-- The catalog map of an ALTER keeps every table name. -/
theorem alterCols_fst (t c : String) (q : String × List String) :
    (alterCols t c q).1 = q.1 := by
  unfold alterCols
  split <;> rfl

/-- Searching a table by name commutes with the ALTER catalog map. -/
theorem find?_map_alterCols (t c u : String)
    (l : List (String × List String)) :
    (l.map (alterCols t c)).find? (fun q => q.1 == u)
      = (l.find? (fun q => q.1 == u)).map (alterCols t c) := by
  induction l with
  | nil => rfl
  | cons a ts ih =>
    cases hpa : (a.1 == u) with
    | true =>
      have hfa : ((alterCols t c a).1 == u) = true := by
        rw [alterCols_fst]; exact hpa
      simp [List.find?_cons, hfa, hpa]
    | false =>
      have hfa : ((alterCols t c a).1 == u) = false := by
        rw [alterCols_fst]; exact hpa
      simpa [List.find?_cons, hfa, hpa] using ih

/-- Table existence is a function of the table list alone. -/
theorem hasTable_congr (s1 s2 : SchemaState) (u : String)
    (h : s1.tables = s2.tables) : hasTable s1 u = hasTable s2 u := by
  simp [hasTable, h]

/-- Introspection is a function of the table list alone. -/
theorem tableColumns_congr (s1 s2 : SchemaState) (u : String)
    (h : s1.tables = s2.tables) : tableColumns s1 u = tableColumns s2 u := by
  simp [tableColumns, h]

/-- CREATE TABLE IF NOT EXISTS makes its table exist. -/
theorem hasTable_ctine_self (s : SchemaState) (t : String)
    (cols : List String) :
    hasTable (createTableIfNotExists s t cols) t = true := by
  unfold createTableIfNotExists
  split
  · assumption
  · simp [hasTable, List.any_append]

/-- CREATE TABLE IF NOT EXISTS keeps every existing table. -/
theorem hasTable_ctine_mono (s : SchemaState) (t u : String)
    (cols : List String) (h : hasTable s u = true) :
    hasTable (createTableIfNotExists s t cols) u = true := by
  unfold createTableIfNotExists
  split
  · exact h
  · simp only [hasTable] at h ⊢
    simp [List.any_append, h]

/-- CREATE TABLE IF NOT EXISTS is the identity on an existing table. -/
theorem ctine_eq_of_hasTable (s : SchemaState) (t : String)
    (cols : List String) (h : hasTable s t = true) :
    createTableIfNotExists s t cols = s := by
  unfold createTableIfNotExists
  simp [h]

/-- CREATE TABLE IF NOT EXISTS leaves the index set alone. -/
theorem indexes_ctine (s : SchemaState) (t : String) (cols : List String) :
    (createTableIfNotExists s t cols).indexes = s.indexes := by
  unfold createTableIfNotExists
  split <;> rfl

/-- CREATE TABLE IF NOT EXISTS preserves duplicate-free columns when
the created column list is itself duplicate-free. -/
theorem tableColumns_ctine_nodup (s : SchemaState) (t : String)
    (cols : List String) (hc : cols.Nodup)
    (hnd : ∀ u, (tableColumns s u).Nodup) :
    ∀ u, (tableColumns (createTableIfNotExists s t cols) u).Nodup := by
  intro u
  unfold createTableIfNotExists
  split
  · exact hnd u
  · show (tableColumns { s with tables := s.tables ++ [(t, cols)] } u).Nodup
    unfold tableColumns
    cases hf : s.tables.find? (fun q => q.1 == u) with
    | some p =>
      have := hnd u
      unfold tableColumns at this
      rw [hf] at this
      simp only
      rw [find?_append_of_some _ _ _ _ hf]
      exact this
    | none =>
      simp only
      rw [find?_append_of_none _ _ _ hf]
      cases hu : (t == u) with
      | true => simp [List.find?_cons, hu, hc]
      | false => simp [List.find?_cons, hu]

/-- The table-creation fold keeps every existing table. -/
theorem hasTable_foldl_ctine_mono (l : List (String × List String))
    (s : SchemaState) (u : String) (h : hasTable s u = true) :
    hasTable (l.foldl (fun acc p => createTableIfNotExists acc p.1 p.2) s) u
      = true := by
  induction l generalizing s with
  | nil => exact h
  | cons p ts ih => exact ih _ (hasTable_ctine_mono _ _ _ _ h)

/-- The table-creation fold makes every listed table exist. -/
theorem hasTable_foldl_ctine_of_mem (l : List (String × List String))
    (s : SchemaState) (t : String) (cols : List String)
    (h : (t, cols) ∈ l) :
    hasTable (l.foldl (fun acc p => createTableIfNotExists acc p.1 p.2) s) t
      = true := by
  induction l generalizing s with
  | nil => simp at h
  | cons p ts ih =>
    rcases List.mem_cons.mp h with heq | hm
    · subst heq
      exact hasTable_foldl_ctine_mono ts _ t (hasTable_ctine_self s t cols)
    · exact ih _ hm

/-- The table-creation fold is the identity when every listed table
already exists. -/
theorem foldl_ctine_eq_of_all (l : List (String × List String))
    (s : SchemaState) (h : ∀ p ∈ l, hasTable s p.1 = true) :
    l.foldl (fun acc p => createTableIfNotExists acc p.1 p.2) s = s := by
  induction l generalizing s with
  | nil => rfl
  | cons p ts ih =>
    show ts.foldl _ (createTableIfNotExists s p.1 p.2) = s
    rw [ctine_eq_of_hasTable s p.1 p.2 (h p (List.mem_cons_self _ _))]
    exact ih s (fun q hq => h q (List.mem_cons_of_mem _ hq))

/-- The table-creation fold leaves the index set alone. -/
theorem indexes_foldl_ctine (l : List (String × List String))
    (s : SchemaState) :
    (l.foldl (fun acc p => createTableIfNotExists acc p.1 p.2) s).indexes
      = s.indexes := by
  induction l generalizing s with
  | nil => rfl
  | cons p ts ih => rw [List.foldl_cons, ih, indexes_ctine]

/-- The table-creation fold preserves duplicate-free columns when every
created column list is duplicate-free. -/
theorem nodup_foldl_ctine (l : List (String × List String))
    (s : SchemaState) (hl : ∀ p ∈ l, p.2.Nodup)
    (hnd : ∀ u, (tableColumns s u).Nodup) :
    ∀ u, (tableColumns
      (l.foldl (fun acc p => createTableIfNotExists acc p.1 p.2) s) u).Nodup := by
  induction l generalizing s with
  | nil => exact hnd
  | cons p ts ih =>
    exact ih _ (fun q hq => hl q (List.mem_cons_of_mem _ hq))
      (tableColumns_ctine_nodup s p.1 p.2 (hl p (List.mem_cons_self _ _)) hnd)

/-- CREATE INDEX IF NOT EXISTS leaves the table list alone. -/
theorem tables_ciine (s : SchemaState) (i : String) :
    (createIndexIfNotExists s i).tables = s.tables := by
  unfold createIndexIfNotExists
  split <;> rfl

/-- The index-creation fold leaves the table list alone. -/
theorem tables_foldl_ciine (l : List String) (s : SchemaState) :
    (l.foldl createIndexIfNotExists s).tables = s.tables := by
  induction l generalizing s with
  | nil => rfl
  | cons i ts ih => rw [List.foldl_cons, ih, tables_ciine]

/-- CREATE INDEX IF NOT EXISTS makes its index exist. -/
theorem contains_ciine_self (s : SchemaState) (i : String) :
    (createIndexIfNotExists s i).indexes.contains i = true := by
  unfold createIndexIfNotExists
  split
  · assumption
  · simp

/-- CREATE INDEX IF NOT EXISTS keeps every existing index. -/
theorem contains_ciine_mono (s : SchemaState) (i j : String)
    (h : s.indexes.contains j = true) :
    (createIndexIfNotExists s i).indexes.contains j = true := by
  unfold createIndexIfNotExists
  split
  · exact h
  · have hj : j ∈ s.indexes := by simpa using h
    simp [hj]

/-- CREATE INDEX IF NOT EXISTS is the identity on an existing index. -/
theorem ciine_eq_of_contains (s : SchemaState) (i : String)
    (h : s.indexes.contains i = true) : createIndexIfNotExists s i = s := by
  have hi : i ∈ s.indexes := by simpa using h
  unfold createIndexIfNotExists
  simp [hi]


/-- The index-creation fold keeps every existing index. -/
theorem contains_foldl_ciine_mono (l : List String) (s : SchemaState)
    (j : String) (h : s.indexes.contains j = true) :
    (l.foldl createIndexIfNotExists s).indexes.contains j = true := by
  induction l generalizing s with
  | nil => exact h
  | cons i ts ih => exact ih _ (contains_ciine_mono _ _ _ h)

/-- The index-creation fold makes every listed index exist. -/
theorem contains_foldl_ciine_of_mem (l : List String) (s : SchemaState)
    (i : String) (h : i ∈ l) :
    (l.foldl createIndexIfNotExists s).indexes.contains i = true := by
  induction l generalizing s with
  | nil => simp at h
  | cons j ts ih =>
    rcases List.mem_cons.mp h with heq | hm
    · subst heq
      exact contains_foldl_ciine_mono ts _ i (contains_ciine_self s i)
    · exact ih _ hm

/-- The index-creation fold is the identity when every listed index
already exists. -/
theorem foldl_ciine_eq_of_all (l : List String) (s : SchemaState)
    (h : ∀ i ∈ l, s.indexes.contains i = true) :
    l.foldl createIndexIfNotExists s = s := by
  induction l generalizing s with
  | nil => rfl
  | cons i ts ih =>
    show ts.foldl _ (createIndexIfNotExists s i) = s
    rw [ciine_eq_of_contains s i (h i (List.mem_cons_self _ _))]
    exact ih s (fun j hj => h j (List.mem_cons_of_mem _ hj))

/-- ALTER TABLE ADD COLUMN on an existing table and absent column
succeeds, keeps table existence and the index set, appends exactly the
new column to the altered table, and leaves every other table
definition alone. -/
theorem alter_ok_spec (s : SchemaState) (t c : String)
    (ht : hasTable s t = true)
    (hc : (tableColumns s t).contains c = false) :
    ∃ s1, alterTableAddColumn s t c = .ok s1 ∧
      (∀ u, hasTable s1 u = hasTable s u) ∧
      s1.indexes = s.indexes ∧
      tableColumns s1 t = tableColumns s t ++ [c] ∧
      (∀ u, u ≠ t → tableColumns s1 u = tableColumns s u) := by
  have h1 : (s.tables.find? (fun q => q.1 == t)).isSome := by
    rw [List.find?_isSome]
    simpa [hasTable, List.any_eq_true] using ht
  obtain ⟨entry, hp⟩ := Option.isSome_iff_exists.mp h1
  have hcols : tableColumns s t = entry.2 := by
    unfold tableColumns
    rw [hp]
  have hpc : entry.2.contains c = false := by
    rw [← hcols]
    exact hc
  refine ⟨{ s with tables := s.tables.map (alterCols t c) }, ?_, ?_, rfl, ?_, ?_⟩
  · unfold alterTableAddColumn
    rw [hp]
    have hcm : c ∉ entry.2 := by simpa using hpc
    simp [hcm]
  · intro u
    have hfun : ((fun q : String × List String => q.1 == u) ∘ alterCols t c)
        = (fun q : String × List String => q.1 == u) := by
      funext q
      simp [Function.comp, alterCols_fst]
    simp [hasTable, List.any_map, hfun]
  · have hpt0 := List.find?_some hp
    have hpt : (entry.1 == t) = true := hpt0
    show tableColumns { s with tables := s.tables.map (alterCols t c) } t = _
    unfold tableColumns
    simp only
    rw [find?_map_alterCols, hp]
    simp [alterCols, hpt]
  · intro u hu
    show tableColumns { s with tables := s.tables.map (alterCols t c) } u = _
    unfold tableColumns
    simp only
    rw [find?_map_alterCols]
    cases hq : s.tables.find? (fun q => q.1 == u) with
    | none => rfl
    | some q =>
      have hq1 : q.1 = u := by simpa using List.find?_some hq
      have hqt : (q.1 == t) = false := by
        rw [hq1]
        exact beq_eq_false_iff_ne.mpr hu
      simp [alterCols, hqt]

/-- One introspect-then-alter migration step: on an existing table with
duplicate-free columns everywhere it never fails, ends with the column
present, keeps table existence, the index set and the other table
definitions, and preserves duplicate-freeness. -/
theorem ensure_column_spec (s : SchemaState) (t c : String)
    (ht : hasTable s t = true) (hnd : ∀ u, (tableColumns s u).Nodup) :
    ∃ s1, ((tableColumns s t).contains c = true ∧ s1 = s ∨
           (tableColumns s t).contains c = false ∧
             alterTableAddColumn s t c = .ok s1) ∧
      (∀ u, hasTable s1 u = hasTable s u) ∧
      s1.indexes = s.indexes ∧
      (tableColumns s1 t).contains c = true ∧
      (∀ u, u ≠ t → tableColumns s1 u = tableColumns s u) ∧
      (∀ u, (tableColumns s1 u).Nodup) := by
  cases hcc : (tableColumns s t).contains c with
  | true =>
    exact ⟨s, Or.inl ⟨rfl, rfl⟩, fun _ => rfl, rfl, hcc, fun _ _ => rfl, hnd⟩
  | false =>
    obtain ⟨s1, he, hht, hidx, hcolT, hcolO⟩ := alter_ok_spec s t c ht hcc
    refine ⟨s1, Or.inr ⟨rfl, he⟩, hht, hidx, ?_, hcolO, ?_⟩
    · rw [hcolT]
      simp
    · intro u
      by_cases hut : u = t
      · subst hut
        rw [hcolT]
        have hcmem : c ∉ tableColumns s u := by simpa using hcc
        exact List.nodup_append.mpr
          ⟨hnd u, List.nodup_singleton c, List.disjoint_singleton.mpr hcmem⟩
      · rw [hcolO u hut]
        exact hnd u

/-- On a store where users and patterns exist with duplicate-free
columns, migrate succeeds, ends with the role and theory columns
present, and preserves table existence, the index set and
duplicate-freeness. -/
theorem migrate_total (isP : Bool) (s : SchemaState)
    (hu : hasTable s "users" = true) (hp : hasTable s "patterns" = true)
    (hnd : ∀ u, (tableColumns s u).Nodup) :
    ∃ s2 a, migrate isP s = .ok (s2, a) ∧
      (∀ u, hasTable s2 u = hasTable s u) ∧
      s2.indexes = s.indexes ∧
      (tableColumns s2 "users").contains "role" = true ∧
      (tableColumns s2 "patterns").contains "theory" = true ∧
      (∀ u, (tableColumns s2 u).Nodup) := by
  obtain ⟨s1, hbranch1, hht1, hidx1, hrole1, hother1, hnd1⟩ :=
    ensure_column_spec s "users" "role" hu hnd
  have hp1 : hasTable s1 "patterns" = true := by
    rw [hht1]
    exact hp
  obtain ⟨s2, hbranch2, hht2, hidx2, htheory2, hother2, hnd2⟩ :=
    ensure_column_spec s1 "patterns" "theory" hp1 hnd1
  have hrole2 : (tableColumns s2 "users").contains "role" = true := by
    rw [hother2 "users" (by decide)]
    exact hrole1
  have hht : ∀ u, hasTable s2 u = hasTable s u :=
    fun u => (hht2 u).trans (hht1 u)
  have hidx : s2.indexes = s.indexes := hidx2.trans hidx1
  rcases hbranch1 with ⟨hc1, h1eq⟩ | ⟨hc1, he1⟩
  · have hm1 : "role" ∈ tableColumns s "users" := by simpa using hc1
    rcases hbranch2 with ⟨hc2, h2eq⟩ | ⟨hc2, he2⟩
    · have hm2 : "theory" ∈ tableColumns s "patterns" := by
        rw [h1eq] at hc2
        simpa using hc2
      refine ⟨s2, [], ?_, hht, hidx, hrole2, htheory2, hnd2⟩
      rw [h2eq, h1eq]
      simp [migrate, hm1, hm2]
    · have hm2 : "theory" ∉ tableColumns s "patterns" := by
        rw [h1eq] at hc2
        simpa using hc2
      have he2s : alterTableAddColumn s "patterns" "theory" = .ok s2 := by
        rw [h1eq] at he2
        exact he2
      refine ⟨s2, [("patterns", "theory")], ?_, hht, hidx, hrole2, htheory2, hnd2⟩
      simp [migrate, hm1, hm2, he2s]
  · have hm1 : "role" ∉ tableColumns s "users" := by simpa using hc1
    rcases hbranch2 with ⟨hc2, h2eq⟩ | ⟨hc2, he2⟩
    · have hm2 : "theory" ∈ tableColumns s1 "patterns" := by simpa using hc2
      refine ⟨s2, [("users", "role")], ?_, hht, hidx, hrole2, htheory2, hnd2⟩
      rw [h2eq]
      simp [migrate, hm1, he1, hm2]
    · have hm2 : "theory" ∉ tableColumns s1 "patterns" := by simpa using hc2
      refine ⟨s2, [("users", "role"), ("patterns", "theory")], ?_,
        hht, hidx, hrole2, htheory2, hnd2⟩
      simp [migrate, hm1, he1, hm2, he2]

/-- When the role and theory columns are already present, migrate is a
pure introspection: it succeeds, changes nothing and issues no ALTER
TABLE. -/
theorem migrate_noop (isP : Bool) (s : SchemaState)
    (hr : (tableColumns s "users").contains "role" = true)
    (ht : (tableColumns s "patterns").contains "theory" = true) :
    migrate isP s = .ok (s, []) := by
  have hm1 : "role" ∈ tableColumns s "users" := by simpa using hr
  have hm2 : "theory" ∈ tableColumns s "patterns" := by simpa using ht
  simp [migrate, hm1, hm2]

/-- Every table InitSchema creates exists afterwards. -/
theorem hasTable_InitSchema_all (isP : Bool) (s : SchemaState) :
    ∀ p ∈ schemaTables, hasTable (InitSchema isP s) p.1 = true := by
  intro p hp
  unfold InitSchema
  rw [hasTable_congr _ _ _ (tables_foldl_ciine _ _)]
  exact hasTable_foldl_ctine_of_mem schemaTables s p.1 p.2 hp

/-- Every index InitSchema creates exists afterwards. -/
theorem indexes_InitSchema_all (isP : Bool) (s : SchemaState) :
    ∀ i ∈ schemaIndexes, (InitSchema isP s).indexes.contains i = true := by
  intro i hi
  unfold InitSchema
  exact contains_foldl_ciine_of_mem schemaIndexes _ i hi

/-- InitSchema preserves duplicate-free table definitions. -/
theorem nodup_InitSchema (isP : Bool) (s : SchemaState)
    (hnd : ∀ u, (tableColumns s u).Nodup) :
    ∀ u, (tableColumns (InitSchema isP s) u).Nodup := by
  intro u
  unfold InitSchema
  rw [tableColumns_congr _ _ _ (tables_foldl_ciine _ _)]
  exact nodup_foldl_ctine schemaTables s (by decide) hnd u

/-- InitSchema is the identity once all its tables and indexes exist:
every statement is CREATE ... IF NOT EXISTS. -/
theorem InitSchema_eq_self (isP : Bool) (s : SchemaState)
    (hT : ∀ p ∈ schemaTables, hasTable s p.1 = true)
    (hI : ∀ i ∈ schemaIndexes, s.indexes.contains i = true) :
    InitSchema isP s = s := by
  unfold InitSchema
  rw [foldl_ctine_eq_of_all _ _ hT, foldl_ciine_eq_of_all _ _ hI]

/-- C5.  Starting from any store whose introspected table definitions
are duplicate-free, running InitSchema followed by migrate succeeds;
running the pair a second time on the result succeeds again, changes
nothing (the second InitSchema is the identity) and issues no ALTER
TABLE, because the second introspection finds role and theory already
present; and no table definition ever acquires a duplicate column. -/
theorem c5_schema_init_migrate_idempotent (isP : Bool) (s : SchemaState)
    (hnd : ∀ u, (tableColumns s u).Nodup) :
    ∃ s2 alters,
      migrate isP (InitSchema isP s) = .ok (s2, alters) ∧
      InitSchema isP s2 = s2 ∧
      migrate isP (InitSchema isP s2) = .ok (s2, []) ∧
      (tableColumns s2 "users").contains "role" = true ∧
      (tableColumns s2 "patterns").contains "theory" = true ∧
      (∀ u, (tableColumns s2 u).Nodup) := by
  have hu : hasTable (InitSchema isP s) "users" = true :=
    hasTable_InitSchema_all isP s
      ("users", ["id", "email", "name", "password", "role", "created_at"])
      (by decide)
  have hpat : hasTable (InitSchema isP s) "patterns" = true :=
    hasTable_InitSchema_all isP s
      ("patterns", ["id", "category_id", "name", "icon", "description",
                    "theory", "created_at", "updated_at"])
      (by decide)
  have hnd' : ∀ u, (tableColumns (InitSchema isP s) u).Nodup :=
    nodup_InitSchema isP s hnd
  obtain ⟨s2, a, hmig, hht, hidx, hrole, htheory, hnd2⟩ :=
    migrate_total isP (InitSchema isP s) hu hpat hnd'
  have hT2 : ∀ p ∈ schemaTables, hasTable s2 p.1 = true := fun p hp => by
    rw [hht p.1]
    exact hasTable_InitSchema_all isP s p hp
  have hI2 : ∀ i ∈ schemaIndexes, s2.indexes.contains i = true := fun i hi => by
    rw [hidx]
    exact indexes_InitSchema_all isP s i hi
  have hfix : InitSchema isP s2 = s2 := InitSchema_eq_self isP s2 hT2 hI2
  refine ⟨s2, a, hmig, hfix, ?_, hrole, htheory, hnd2⟩
  rw [hfix]
  exact migrate_noop isP s2 hrole htheory

/-- C5 witness: the theorem applied to the fresh (empty) store, the
first boot of a new installation. -/
theorem c5_schema_init_migrate_idempotent_witness :
    ∃ s2 alters,
      migrate false (InitSchema false SchemaState.empty) = .ok (s2, alters) ∧
      InitSchema false s2 = s2 ∧
      migrate false (InitSchema false s2) = .ok (s2, []) ∧
      (tableColumns s2 "users").contains "role" = true ∧
      (tableColumns s2 "patterns").contains "theory" = true ∧
      (∀ u, (tableColumns s2 u).Nodup) :=
  c5_schema_init_migrate_idempotent false SchemaState.empty
    (fun u => by simp [tableColumns, SchemaState.empty])

end AlgoVault
